import Mathlib

/-!
Verification development for the `pocket-cli` command-line client
(`cmd/pocket/main.go`).  The Go source is shallowly embedded: pure code
becomes Lean functions, file-system and remote effects become explicit
state passing over an association-list file system together with an
oracle record for the outcomes of remote calls, and the observable steps
of the authorization acquisition flow are recorded as an event trace.
-/

namespace PocketCli

/-! ## JSON serialization layer

`saveJSONToFile` and `loadJSONFromFile` in `main.go` delegate to Go's
`encoding/json` package applied to the two-string-field authorization
record.  The encoder and decoder below model, at the level of Unicode
scalar sequences, what `json.NewEncoder(w).Encode` and
`json.NewDecoder(r).Decode` do on such a record: the encoder escapes
`"`, `\`, newline, carriage return, tab, the HTML-sensitive characters
`<`, `>`, `&` (as lowercase `\u00xx`), the remaining control characters
below U+0020 (as `\u00xx`) and U+2028/U+2029 (as `\u202x`), and emits
all other scalars literally; the decoder accepts the standard JSON
escapes, rejects unescaped control characters, and maps a `\uXXXX`
surrogate code unit to U+FFFD (Go additionally combines valid surrogate
pairs, which the encoder never produces). -/

/-- Lowercase hexadecimal digit for `n < 16`, as in Go's
`encoding/json` `hex = "0123456789abcdef"` table. -/
def hexDig (n : Nat) : Char :=
  if n < 10 then Char.ofNat (48 + n) else Char.ofNat (87 + n)

/-- Escape one character the way Go's `encoding/json` string encoder
(with its default HTML escaping) does. -/
def escapeChar (c : Char) : List Char :=
  if c = '"' then ['\\', '"']
  else if c = '\\' then ['\\', '\\']
  else if c = '\n' then ['\\', 'n']
  else if c = '\r' then ['\\', 'r']
  else if c = '\t' then ['\\', 't']
  else if c = '<' ∨ c = '>' ∨ c = '&' then
    ['\\', 'u', '0', '0', hexDig (c.toNat / 16), hexDig (c.toNat % 16)]
  else if c.toNat < 32 then
    ['\\', 'u', '0', '0', hexDig (c.toNat / 16), hexDig (c.toNat % 16)]
  else if c.toNat = 8232 ∨ c.toNat = 8233 then
    ['\\', 'u', '2', '0', '2', hexDig (c.toNat % 16)]
  else [c]

/-- JSON string literal body for a sequence of scalars, closing quote
included (the opening quote is written by the callers). -/
def encodeStringBody (s : List Char) : List Char :=
  s.flatMap escapeChar ++ ['"']

/-- Value of one hexadecimal digit, upper or lower case accepted, as in
Go's `getu4`. -/
def hexVal (c : Char) : Option Nat :=
  if '0' ≤ c ∧ c ≤ '9' then some (c.toNat - 48)
  else if 'a' ≤ c ∧ c ≤ 'f' then some (c.toNat - 87)
  else if 'A' ≤ c ∧ c ≤ 'F' then some (c.toNat - 55)
  else none

/-- Character denoted by a `\uXXXX` escape: the scalar itself, or
U+FFFD when the code is a surrogate code unit. -/
def charFromCode (n : Nat) : Char :=
  if 55296 ≤ n ∧ n ≤ 57343 then Char.ofNat 65533 else Char.ofNat n

/-- Single-character JSON escapes (`\u` is handled separately by the
parser, so it maps to `none` here, as does any invalid escape). -/
def unescape : Char → Option Char
  | '"' => some '"'
  | '\\' => some '\\'
  | '/' => some '/'
  | 'b' => some (Char.ofNat 8)
  | 'f' => some (Char.ofNat 12)
  | 'n' => some '\n'
  | 'r' => some '\r'
  | 't' => some '\t'
  | _ => none

/-- Parse the body of a JSON string literal (the opening quote already
consumed): returns the decoded scalars and the input remaining after
the closing quote.  Unescaped control characters are rejected, as Go's
scanner rejects them. -/
def parseStr : List Char → Option (List Char × List Char)
  | [] => none
  | c :: rest =>
    if c = '"' then some ([], rest)
    else if c = '\\' then
      match rest with
      | [] => none
      | 'u' :: h1 :: h2 :: h3 :: h4 :: t =>
        match hexVal h1, hexVal h2, hexVal h3, hexVal h4 with
        | some a, some b, some x, some d =>
          (parseStr t).map (fun p => (charFromCode (4096 * a + 256 * b + 16 * x + d) :: p.1, p.2))
        | _, _, _, _ => none
      | e :: t =>
        match unescape e with
        | some d => (parseStr t).map (fun p => (d :: p.1, p.2))
        | none => none
    else if c.toNat < 32 then none
    else (parseStr rest).map (fun p => (c :: p.1, p.2))

/-! ## The authorization record -/

/-- Modelled from the spec: the authorization record persisted by the
orchestrator.  The record type itself lives in the `go-pocket/auth`
dependency, outside this repository's source; per the spec it is a
structured field-tagged record "containing at minimum an
access-credential string and an opaque user identifier", and `main.go`
reads its `AccessToken` field.  Strings are sequences of Unicode
scalars. -/
structure Authorization where
  AccessToken : List Char
  Username : List Char
deriving DecidableEq, Repr

/-- Output of `json.NewEncoder(w).Encode` on the authorization record:
the object with the two tagged fields in declaration order, followed by
the newline the encoder appends. -/
def encodeAuthorization (a : Authorization) : List Char :=
  ['{', '"'] ++ encodeStringBody "access_token".data ++ [':', '"'] ++
    encodeStringBody a.AccessToken ++ [',', '"'] ++
    encodeStringBody "username".data ++ [':', '"'] ++
    encodeStringBody a.Username ++ ['}', '\n']

/-- Behaviour of `json.NewDecoder(r).Decode` on an authorization-record
file, restricted to the canonical shape the encoder produces: an object
with the `access_token` and `username` string fields in that order and
no interior whitespace; input after the closing brace is ignored, as
`Decode` reads a single value.  (Go's decoder is more lenient — field
order, unknown fields, whitespace — so this recognizes a subset of the
well-formed records.) -/
def decodeAuthorization (s : List Char) : Option Authorization :=
  match s with
  | '{' :: '"' :: r0 =>
    match parseStr r0 with
    | some (k1, ':' :: '"' :: r1) =>
      match parseStr r1 with
      | some (v1, ',' :: '"' :: r2) =>
        match parseStr r2 with
        | some (k2, ':' :: '"' :: r3) =>
          match parseStr r3 with
          | some (v2, '}' :: _) =>
            if k1 = "access_token".data ∧ k2 = "username".data then
              some ⟨v1, v2⟩
            else none
          | _ => none
        | _ => none
      | _ => none
    | _ => none
  | _ => none

/-! ## File system, persistence functions and the acquisition flow

The file system is an association list from paths to contents, newest
entry first.  Remote-call outcomes are supplied by an oracle record
`Env`, and the observable steps of `obtainAccessToken` are recorded in
an event trace. -/

/-- File system: paths to contents, newest entry first. -/
def FS := List (String × List Char)

instance : DecidableEq FS := by unfold FS; infer_instance

/-- Contents of a file, `none` when `os.Open` would fail (file absent). -/
def FS.read (fs : FS) (p : String) : Option (List Char) :=
  (fs.find? (fun e => e.1 = p)).map (fun e => e.2)

/-- Overwrite (`os.Create` then write): the new entry shadows any older
one. -/
def FS.write (fs : FS) (p : String) (v : List Char) : FS :=
  (p, v) :: fs

/-- Path of the authorization record file,
`filepath.Join(configDir, "auth.json")` with the configuration
directory elided. -/
def authFile : String := "auth.json"

/-- Go error values, modelled as their message strings. -/
def GoErr := String

instance : DecidableEq GoErr := by unfold GoErr; infer_instance

/-- Embedding of `saveJSONToFile` specialized to the authorization
record, its only use: `os.Create` may fail (oracle flag `createFails`,
leaving the file system unchanged); otherwise the encoded record is
written.  Encoding a two-string-field record never fails in Go. -/
def saveJSONToFile (createFails : Bool) (fs : FS) (path : String) (a : Authorization) :
    Except GoErr FS :=
  if createFails then Except.error "create failed"
  else Except.ok (fs.write path (encodeAuthorization a))

/-- Embedding of `loadJSONFromFile` specialized to the authorization
record: `os.Open` fails when the file is absent; otherwise the contents
are decoded. -/
def loadJSONFromFile (fs : FS) (path : String) : Except GoErr Authorization :=
  match fs.read path with
  | none => Except.error "open failed"
  | some content =>
    match decodeAuthorization content with
    | none => Except.error "decode failed"
    | some a => Except.ok a

/-- Observable steps of the acquisition flow: the
`httptest.NewServer` listener bind, the `auth.ObtainRequestToken`
remote call, the pure `auth.GenerateAuthorizationURL` construction, the
`<-ch` wait, the `auth.ObtainAccessToken` exchange, and the
`saveJSONToFile` persistence call. -/
inductive Event where
  | listenerBind
  | requestCredential
  | urlConstruction
  | awaitSignal
  | exchange
  | persist
deriving DecidableEq, Repr

/-- Oracle for the outcomes of the external calls made by the flow:
the request-token call, the access-token exchange (a function of the
request token it is given), and whether `os.Create` fails during the
save. -/
structure Env where
  requestTokenResult : Except GoErr (List Char)
  exchangeResult : List Char → Except GoErr Authorization
  createFails : Bool

/-- Embedding of `obtainAccessToken`: binds the listener
(`httptest.NewServer`), calls `auth.ObtainRequestToken` with the
listener's URL as redirect target, constructs and prints the
authorization URL, blocks on the rendezvous channel, then calls
`auth.ObtainAccessToken`.  Returns the result together with the trace
of steps performed.  The wait is modelled as always returning, since
the unbuffered receive blocks until the user completes the browser
step. -/
def obtainAccessToken (env : Env) (consumerKey : List Char) : Except GoErr Authorization × List Event :=
  match env.requestTokenResult with
  | Except.error e => (Except.error e, [Event.listenerBind, Event.requestCredential])
  | Except.ok requestToken =>
    match env.exchangeResult requestToken with
    | Except.error e =>
      (Except.error e,
        [Event.listenerBind, Event.requestCredential, Event.urlConstruction,
          Event.awaitSignal, Event.exchange])
    | Except.ok a =>
      (Except.ok a,
        [Event.listenerBind, Event.requestCredential, Event.urlConstruction,
          Event.awaitSignal, Event.exchange])

/-- Embedding of `restoreAccessToken`: load the record file; on any
load failure run `obtainAccessToken` and, if it succeeds, save the
result, propagating a save failure as an error.  Returns the result,
the final file system, and the trace of acquisition steps performed. -/
def restoreAccessToken (env : Env) (consumerKey : List Char) (fs : FS) :
    Except GoErr Authorization × FS × List Event :=
  match loadJSONFromFile fs authFile with
  | Except.ok accessToken => (Except.ok accessToken, fs, [])
  | Except.error _ =>
    match obtainAccessToken env consumerKey with
    | (Except.error e, evs) => (Except.error e, fs, evs)
    | (Except.ok accessToken, evs) =>
      match saveJSONToFile env.createFails fs authFile accessToken with
      | Except.error e => (Except.error e, fs, evs ++ [Event.persist])
      | Except.ok fs' => (Except.ok accessToken, fs', evs ++ [Event.persist])

/-! ## The local callback listener -/

/-- What the listener's HTTP handler does for one request: status code,
`Content-Type` header if set, body written, and whether the handler
reaches the channel send `ch <- struct{}{}`. -/
structure HandlerResult where
  status : Nat
  contentType : Option String
  body : List Char
  signalSent : Bool
deriving DecidableEq, Repr

/-- Embedding of the `http.HandlerFunc` closure in `obtainAccessToken`:
a request to `/favicon.ico` gets `http.Error(w, "Not Found", 404)`
(which sets a plain-text content type and appends a newline) and no
signal; any other path gets a plain-text `"Authorized."` line and the
channel send. -/
def callbackHandler (path : String) : HandlerResult :=
  if path = "/favicon.ico" then
    { status := 404, contentType := some "text/plain; charset=utf-8",
      body := "Not Found\n".data, signalSent := false }
  else
    { status := 200, contentType := some "text/plain",
      body := "Authorized.\n".data, signalSent := true }

/-- Capacity of the rendezvous channel: `make(chan struct{})` creates
an unbuffered channel. -/
def callbackChannelCapacity : Nat := 0

/-- Number of receives the orchestrator performs on the channel: the
single `<-ch` in `obtainAccessToken`. -/
def orchestratorReceiveCount : Nat := 1

/-- Channel semantics for the handler's send: with `r` receives ever
performed and capacity `cap`, the `k`-th send on the channel (1-based)
can complete only when `k ≤ r + cap`; any later send blocks its
goroutine forever. -/
def sendCanComplete (k : Nat) : Bool :=
  k ≤ orchestratorReceiveCount + callbackChannelCapacity

/-! ## Consumer key -/

/-- State touched by `getConsumerKey`: the consumer-key file (contents
and permission bits) when it is readable, and the unread part of
standard input. -/
structure KeyState where
  keyFile : Option (List Char × Nat)
  stdin : List Char
deriving DecidableEq, Repr

/-- Embedding of `getConsumerKey`: read the consumer-key file and
return everything before the first newline
(`bytes.SplitN(b, "\n", 2)[0]`); on read failure (file absent), prompt,
read one line from standard input (`bufio.Reader.ReadLine`, which
errors — and the program panics — only at immediate end of input),
write it to the file with mode `0600`, and return it. -/
def getConsumerKey (st : KeyState) : Except GoErr (List Char) × KeyState :=
  match st.keyFile with
  | some (content, _) => (Except.ok (content.takeWhile (fun c => c ≠ '\n')), st)
  | none =>
    if st.stdin = [] then (Except.error "EOF", st)
    else
      let line := st.stdin.takeWhile (fun c => c ≠ '\n')
      (Except.ok line,
        { keyFile := some (line, 384),
          stdin := (st.stdin.dropWhile (fun c => c ≠ '\n')).drop 1 })

/-! ## Item commands

`commandAdd` and `commandArchive` consult the CLI context for flag
values and arguments and call the remote client; both are modelled
with the remote call's outcome supplied as an oracle. -/

/-- Split a character sequence at commas (`strings.Split` on `","`). -/
def splitOnComma : List Char → List (List Char)
  | [] => [[]]
  | ',' :: t => [] :: splitOnComma t
  | c :: t =>
    match splitOnComma t with
    | [] => [[c]]
    | h :: r => (c :: h) :: r

/-- Trim leading and trailing spaces (`strings.Trim(name, " ")`). -/
def trimSpaces (s : List Char) : List Char :=
  ((s.dropWhile (fun c => c = ' ')).reverse.dropWhile (fun c => c = ' ')).reverse

/-- Names under which a `cli.StringFlag` with the given `Name` field is
registered: the comma-separated segments of the field, trimmed, as
urfave/cli's `eachName` computes them. -/
def flagNames (nameSpec : String) : List String :=
  ((splitOnComma nameSpec.data).map trimSpaces).map (fun l => String.mk l)


/-- Flag values supplied on an `add` invocation (the parsed values of
the two registered string flags). -/
structure AddFlags where
  title : String
  tags : String
deriving DecidableEq, Repr

/-- Embedding of `c.String(name)` for the `add` command's flag set:
the value of the flag among whose registered names `name` occurs
(title is registered as `"title, t"`, tags as `"tags, tg"`), and the
empty string when no flag matches. -/
def contextString (flags : AddFlags) (name : String) : String :=
  if (flagNames "title, t").contains name then flags.title
  else if (flagNames "tags, tg").contains name then flags.tags
  else ""

/-- The `api.AddOption` fields `commandAdd` fills in. -/
structure AddOption where
  URL : String
  Title : String
  Tags : String
deriving DecidableEq, Repr

/-- Embedding of `commandAdd` up to the remote `client.Add` call: the
options record it sends, or the error returned before any call.  Note
the source looks up `c.String("--tags")`. -/
def commandAdd (firstArg : String) (flags : AddFlags) : Except GoErr AddOption :=
  if firstArg = "" then Except.error "url not found"
  else
    let o0 : AddOption := { URL := firstArg, Title := "", Tags := "" }
    let title := contextString flags "title"
    let o1 := if title ≠ "" then { o0 with Title := title } else o0
    let tags := contextString flags "--tags"
    let o2 := if tags ≠ "" then { o1 with Tags := tags } else o1
    Except.ok o2

/-- Embedding of `strconv.Atoi`: optional sign followed by at least one
decimal digit (the 64-bit range check is elided, integers being
unbounded here). -/
def atoi (s : String) : Option Int :=
  let digitsVal : List Char → Option Nat := fun ds =>
    if ds = [] then none
    else if ds.all Char.isDigit then
      some (ds.foldl (fun a c => 10 * a + (c.toNat - 48)) 0)
    else none
  match s.data with
  | '+' :: ds => (digitsVal ds).map Int.ofNat
  | '-' :: ds => (digitsVal ds).map (fun n => -(n : Int))
  | ds => (digitsVal ds).map Int.ofNat


/-- Outcome of the remote `client.Modify` call: the response and error
values that `commandArchive` prints. -/
structure ModifyOutcome where
  res : Option String
  err : Option GoErr

/-- Embedding of `commandArchive`: errors when the first argument is
missing or non-numeric; otherwise calls `client.Modify`, prints its
response and error, and returns `nil` unconditionally. -/
def commandArchive (firstArg : String) (modify : Int → ModifyOutcome) : Except GoErr Unit :=
  if firstArg = "" then Except.error "item id not found"
  else
    match atoi firstArg with
    | none => Except.error "item id should be number"
    | some itemID =>
      let _ := modify itemID
      Except.ok ()

deriving instance DecidableEq for Except

/-- Oracle under which every remote call succeeds and the save
succeeds: the request-token call yields `req-1` and the exchange yields
the `tok-xyz`/`alice` record. -/
def envOk : Env :=
  { requestTokenResult := Except.ok "req-1".data,
    exchangeResult := fun _ => Except.ok ⟨"tok-xyz".data, "alice".data⟩,
    createFails := false }

/-- Oracle under which the exchange succeeds but `os.Create` fails
during the save. -/
def envSaveFail : Env :=
  { requestTokenResult := Except.ok "req-1".data,
    exchangeResult := fun _ => Except.ok ⟨"tok-xyz".data, "alice".data⟩,
    createFails := true }

/-- Oracle under which the exchange step is rejected by the remote
service. -/
def envExchangeFail : Env :=
  { requestTokenResult := Except.ok "req-1".data,
    exchangeResult := fun _ => Except.error "exchange rejected",
    createFails := false }

/-! ## Properties of the serialization layer and evaluation checks -/

theorem hexVal_hexDig (n : Nat) (h : n < 16) : hexVal (hexDig n) = some n := by
  interval_cases n <;> decide

theorem parseStr_u (h1 h2 h3 h4 : Char) (t : List Char) (a b x d : Nat)
    (H1 : hexVal h1 = some a) (H2 : hexVal h2 = some b)
    (H3 : hexVal h3 = some x) (H4 : hexVal h4 = some d) :
    parseStr ('\\' :: 'u' :: h1 :: h2 :: h3 :: h4 :: t) =
      (parseStr t).map (fun p => (charFromCode (4096 * a + 256 * b + 16 * x + d) :: p.1, p.2)) := by
  conv_lhs => rw [parseStr.eq_def]
  simp [H1, H2, H3, H4]

theorem parseStr_lit (c : Char) (t : List Char) (h1 : c ≠ '"') (h2 : c ≠ '\\')
    (h3 : ¬ c.toNat < 32) :
    parseStr (c :: t) = (parseStr t).map (fun p => (c :: p.1, p.2)) := by
  conv_lhs => rw [parseStr.eq_def]
  simp only [if_neg h1, if_neg h2, if_neg h3]

/-- Parsing the escape sequence produced by `escapeChar c` yields `c`
back and continues with the rest of the input. -/
theorem parseStr_escapeChar (c : Char) (r : List Char) :
    parseStr (escapeChar c ++ r) = (parseStr r).map (fun p => (c :: p.1, p.2)) := by
  by_cases e1 : c = '"'
  · subst e1
    show parseStr ('\\' :: '"' :: r) = (parseStr r).map fun p => ('"' :: p.1, p.2)
    conv_lhs => rw [parseStr.eq_def]
    simp [unescape]
  by_cases e2 : c = '\\'
  · subst e2
    show parseStr ('\\' :: '\\' :: r) = (parseStr r).map fun p => ('\\' :: p.1, p.2)
    conv_lhs => rw [parseStr.eq_def]
    simp [unescape]
  by_cases e3 : c = '\n'
  · subst e3
    show parseStr ('\\' :: 'n' :: r) = (parseStr r).map fun p => ('\n' :: p.1, p.2)
    conv_lhs => rw [parseStr.eq_def]
    simp [unescape]
  by_cases e4 : c = '\r'
  · subst e4
    show parseStr ('\\' :: 'r' :: r) = (parseStr r).map fun p => ('\r' :: p.1, p.2)
    conv_lhs => rw [parseStr.eq_def]
    simp [unescape]
  by_cases e5 : c = '\t'
  · subst e5
    show parseStr ('\\' :: 't' :: r) = (parseStr r).map fun p => ('\t' :: p.1, p.2)
    conv_lhs => rw [parseStr.eq_def]
    simp [unescape]
  by_cases e6 : c = '<' ∨ c = '>' ∨ c = '&'
  · rcases e6 with h | h | h
    · subst h
      show parseStr ('\\' :: 'u' :: '0' :: '0' :: '3' :: 'c' :: r) =
        (parseStr r).map fun p => ('<' :: p.1, p.2)
      rw [parseStr_u '0' '0' '3' 'c' r 0 0 3 12 (by decide) (by decide) (by decide) (by decide)]
      norm_num [show charFromCode 60 = '<' from by decide]
    · subst h
      show parseStr ('\\' :: 'u' :: '0' :: '0' :: '3' :: 'e' :: r) =
        (parseStr r).map fun p => ('>' :: p.1, p.2)
      rw [parseStr_u '0' '0' '3' 'e' r 0 0 3 14 (by decide) (by decide) (by decide) (by decide)]
      norm_num [show charFromCode 62 = '>' from by decide]
    · subst h
      show parseStr ('\\' :: 'u' :: '0' :: '0' :: '2' :: '6' :: r) =
        (parseStr r).map fun p => ('&' :: p.1, p.2)
      rw [parseStr_u '0' '0' '2' '6' r 0 0 2 6 (by decide) (by decide) (by decide) (by decide)]
      norm_num [show charFromCode 38 = '&' from by decide]
  by_cases e7 : c.toNat < 32
  · rw [show escapeChar c =
        ['\\', 'u', '0', '0', hexDig (c.toNat / 16), hexDig (c.toNat % 16)] by
      simp [escapeChar, e1, e2, e3, e4, e5, e6, e7]]
    rw [List.cons_append, List.cons_append, List.cons_append, List.cons_append,
      List.cons_append, List.cons_append, List.nil_append]
    rw [parseStr_u '0' '0' (hexDig (c.toNat / 16)) (hexDig (c.toNat % 16)) r 0 0
      (c.toNat / 16) (c.toNat % 16) (by decide) (by decide)
      (hexVal_hexDig _ (by omega)) (hexVal_hexDig _ (Nat.mod_lt _ (by omega)))]
    have hm : 4096 * 0 + 256 * 0 + 16 * (c.toNat / 16) + c.toNat % 16 = c.toNat := by
      have := Nat.div_add_mod c.toNat 16
      omega
    rw [hm, show charFromCode c.toNat = c by
      simp [charFromCode, show ¬ (55296 ≤ c.toNat ∧ c.toNat ≤ 57343) by omega,
        Char.ofNat_toNat]]
  by_cases e8 : c.toNat = 8232 ∨ c.toNat = 8233
  · rw [show escapeChar c = ['\\', 'u', '2', '0', '2', hexDig (c.toNat % 16)] by
      simp [escapeChar, e1, e2, e3, e4, e5, e6, e7, e8]]
    rw [List.cons_append, List.cons_append, List.cons_append, List.cons_append,
      List.cons_append, List.cons_append, List.nil_append]
    rw [parseStr_u '2' '0' '2' (hexDig (c.toNat % 16)) r 2 0 2 (c.toNat % 16)
      (by decide) (by decide) (by decide)
      (hexVal_hexDig _ (Nat.mod_lt _ (by omega)))]
    have hm : 4096 * 2 + 256 * 0 + 16 * 2 + c.toNat % 16 = c.toNat := by omega
    rw [hm, show charFromCode c.toNat = c by
      simp [charFromCode, show ¬ (55296 ≤ c.toNat ∧ c.toNat ≤ 57343) by omega,
        Char.ofNat_toNat]]
  · rw [show escapeChar c = [c] by simp [escapeChar, e1, e2, e3, e4, e5, e6, e7, e8]]
    rw [List.cons_append, List.nil_append]
    exact parseStr_lit c r e1 e2 e7

theorem parseStr_quote (r : List Char) : parseStr ('"' :: r) = some ([], r) := by
  simp [parseStr.eq_def]

/-- Parsing an encoded string-literal body recovers the original scalar
sequence and the input after the closing quote. -/
theorem parseStr_encodeStringBody (s : List Char) (r : List Char) :
    parseStr (s.flatMap escapeChar ++ '"' :: r) = some (s, r) := by
  induction s with
  | nil => simp [parseStr.eq_def]
  | cons c s ih => simp [List.append_assoc, parseStr_escapeChar, ih]

example :
    decodeAuthorization (encodeAuthorization ⟨"tok-xyz".data, "alice".data⟩) =
      some ⟨"tok-xyz".data, "alice".data⟩ := by decide

/-- Decoding an encoded record recovers the record. -/
theorem decodeAuthorization_encodeAuthorization (a : Authorization) :
    decodeAuthorization (encodeAuthorization a) = some a := by
  unfold encodeAuthorization decodeAuthorization
  simp [encodeStringBody, List.append_assoc, parseStr_encodeStringBody,
    parseStr_escapeChar, parseStr_quote]


example : flagNames "tags, tg" = ["tags", "tg"] := by decide
example : flagNames "title, t" = ["title", "t"] := by decide

example : atoi "42" = some 42 := by decide
example : atoi "-7" = some (-7) := by decide
example : atoi "" = none := by decide
example : atoi "4x" = none := by decide

/-! ## Claims -/

theorem takeWhile_append_newline (pre post : List Char) (h : '\n' ∉ pre) :
    (pre ++ '\n' :: post).takeWhile (fun c => !decide (c = '\n')) = pre := by
  induction pre with
  | nil => simp
  | cons c cs ih =>
    have hc : c ≠ '\n' := fun hh => h (hh ▸ List.mem_cons_self c cs)
    have hcs : '\n' ∉ cs := fun hm => h (List.mem_cons_of_mem c hm)
    simp [List.takeWhile_cons, hc, ih hcs]

theorem takeWhile_no_newline (content : List Char) (h : '\n' ∉ content) :
    content.takeWhile (fun c => !decide (c = '\n')) = content := by
  induction content with
  | nil => simp
  | cons c cs ih =>
    have hc : c ≠ '\n' := fun hh => h (hh ▸ List.mem_cons_self c cs)
    have hcs : '\n' ∉ cs := fun hm => h (List.mem_cons_of_mem c hm)
    simp [List.takeWhile_cons, hc, ih hcs]

theorem dropWhile_append_newline (pre post : List Char) (h : '\n' ∉ pre) :
    (pre ++ '\n' :: post).dropWhile (fun c => !decide (c = '\n')) = '\n' :: post := by
  induction pre with
  | nil => simp
  | cons c cs ih =>
    have hc : c ≠ '\n' := fun hh => h (hh ▸ List.mem_cons_self c cs)
    have hcs : '\n' ∉ cs := fun hm => h (List.mem_cons_of_mem c hm)
    simp [List.dropWhile_cons, hc, ih hcs]

/-- C1 (counterexample): with no cached record, a successful exchange
and a failing save, `restoreAccessToken` does not return the obtained
credential — it propagates the save error, refuting the claim that the
persistence failure is treated as a non-fatal warning. -/
theorem c1_save_failure_counterexample :
    (obtainAccessToken envSaveFail "abc123".data).1 =
      Except.ok ⟨"tok-xyz".data, "alice".data⟩ ∧
    envSaveFail.createFails = true ∧
    (restoreAccessToken envSaveFail "abc123".data []).1 ≠
      Except.ok ⟨"tok-xyz".data, "alice".data⟩ := by decide

/-- C1 (amended): if the save step fails after a successful exchange,
`restoreAccessToken` returns the save error to its caller; persistence
failure is fatal to the acquisition entry point, not a warning. -/
theorem c1_save_failure_is_fatal (env : Env) (ck : List Char) (fs : FS) (e : GoErr)
    (tok : Authorization) (evs : List Event)
    (hload : loadJSONFromFile fs authFile = Except.error e)
    (hobt : obtainAccessToken env ck = (Except.ok tok, evs))
    (hsave : env.createFails = true) :
    (restoreAccessToken env ck fs).1 = Except.error "create failed" := by
  unfold restoreAccessToken
  rw [hload, hobt]
  simp [saveJSONToFile, hsave]

theorem c1_save_failure_is_fatal_witness :
    (restoreAccessToken envSaveFail "abc123".data []).1 = Except.error "create failed" :=
  c1_save_failure_is_fatal envSaveFail "abc123".data [] "open failed"
    ⟨"tok-xyz".data, "alice".data⟩
    [Event.listenerBind, Event.requestCredential, Event.urlConstruction,
      Event.awaitSignal, Event.exchange]
    (by decide) (by decide) (by decide)

/-- C2: when the record file loads successfully, `restoreAccessToken`
returns exactly the parsed record, leaves the file system unchanged,
and performs none of the acquisition steps (empty trace: no
request-credential call, no listener bind, no wait, no exchange, no
persist). -/
theorem c2_cache_short_circuit (env : Env) (ck : List Char) (fs : FS) (tok : Authorization)
    (hload : loadJSONFromFile fs authFile = Except.ok tok) :
    restoreAccessToken env ck fs = (Except.ok tok, fs, []) := by
  unfold restoreAccessToken
  rw [hload]

theorem c2_cache_short_circuit_witness :
    restoreAccessToken envOk "abc123".data
        [(authFile, encodeAuthorization ⟨"tok-xyz".data, "alice".data⟩)] =
      (Except.ok ⟨"tok-xyz".data, "alice".data⟩,
        [(authFile, encodeAuthorization ⟨"tok-xyz".data, "alice".data⟩)], []) :=
  c2_cache_short_circuit envOk "abc123".data
    [(authFile, encodeAuthorization ⟨"tok-xyz".data, "alice".data⟩)]
    ⟨"tok-xyz".data, "alice".data⟩ (by decide)

/-- C3: if the acquisition flow fails — at the exchange or before it —
no record file is written (the file system is returned unchanged), and
conversely the file system only changes when the
request/authorize/exchange sequence completed successfully end-to-end
(and the save itself succeeded). -/
theorem c3_no_partial_persist (env : Env) (ck : List Char) (fs : FS) :
    (∀ e evs, obtainAccessToken env ck = (Except.error e, evs) →
      (restoreAccessToken env ck fs).2.1 = fs) ∧
    ((restoreAccessToken env ck fs).2.1 ≠ fs →
      ∃ tok evs, obtainAccessToken env ck = (Except.ok tok, evs) ∧
        env.createFails = false) := by
  constructor
  · intro e evs hobt
    unfold restoreAccessToken
    cases hl : loadJSONFromFile fs authFile with
    | ok t => rfl
    | error _ => rw [hobt]
  · intro hne
    unfold restoreAccessToken at hne
    cases hl : loadJSONFromFile fs authFile with
    | ok t => rw [hl] at hne; exact absurd rfl hne
    | error e0 =>
      rw [hl] at hne
      rcases ho : obtainAccessToken env ck with ⟨r, evs⟩
      rw [ho] at hne
      cases r with
      | error e1 => exact absurd rfl hne
      | ok tok =>
        cases hc : env.createFails with
        | true => simp [saveJSONToFile, hc] at hne
        | false => exact ⟨tok, evs, rfl, rfl⟩

theorem c3_no_partial_persist_witness :
    (restoreAccessToken envExchangeFail "abc123".data []).2.1 = ([] : FS) :=
  (c3_no_partial_persist envExchangeFail "abc123".data []).1 "exchange rejected"
    [Event.listenerBind, Event.requestCredential, Event.urlConstruction,
      Event.awaitSignal, Event.exchange]
    (by decide)

/-- C4 (counterexample): on a successful cold-start run the trace is
not the claimed sequence — the listener bind happens first, before the
request-credential call and the URL construction, refuting the claimed
order. -/
theorem c4_order_counterexample :
    (restoreAccessToken envOk "abc123".data []).1 =
      Except.ok ⟨"tok-xyz".data, "alice".data⟩ ∧
    (restoreAccessToken envOk "abc123".data []).2.2 ≠
      [Event.requestCredential, Event.urlConstruction, Event.listenerBind,
        Event.awaitSignal, Event.exchange, Event.persist] := by decide

/-- C4 (amended): for every run starting from a missing or malformed
record file that completes successfully, the flow performs exactly the
sequence listener bind, request-credential, URL construction,
await-signal, exchange, persist — in that order, each step exactly
once. -/
theorem c4_successful_run_order (env : Env) (ck : List Char) (fs : FS) (e : GoErr) (tok : Authorization)
    (hload : loadJSONFromFile fs authFile = Except.error e)
    (hok : (restoreAccessToken env ck fs).1 = Except.ok tok) :
    (restoreAccessToken env ck fs).2.2 =
      [Event.listenerBind, Event.requestCredential, Event.urlConstruction,
        Event.awaitSignal, Event.exchange, Event.persist] := by
  unfold restoreAccessToken at hok ⊢
  rw [hload] at hok ⊢
  rcases ho : obtainAccessToken env ck with ⟨r, evs⟩
  rw [ho] at hok
  cases r with
  | error e1 => simp at hok
  | ok tok1 =>
    have hevs : evs =
        [Event.listenerBind, Event.requestCredential, Event.urlConstruction,
          Event.awaitSignal, Event.exchange] := by
      unfold obtainAccessToken at ho
      split at ho
      · simp at ho
      · split at ho
        · simp at ho
        · simp at ho; exact ho.2.symm
    cases hc : env.createFails with
    | true => rw [hc] at hok; simp [saveJSONToFile] at hok
    | false => simp [saveJSONToFile, hevs]

theorem c4_successful_run_order_witness :
    (restoreAccessToken envOk "abc123".data []).2.2 =
      [Event.listenerBind, Event.requestCredential, Event.urlConstruction,
        Event.awaitSignal, Event.exchange, Event.persist] :=
  c4_successful_run_order envOk "abc123".data [] "open failed"
    ⟨"tok-xyz".data, "alice".data⟩ (by decide) (by decide)

/-- C5 (counterexample): the rendezvous channel the flow creates is an
unbuffered Go channel, so its capacity is not at least 1, refuting the
claim. -/
theorem c5_capacity_counterexample : ¬ (1 ≤ callbackChannelCapacity) := by decide

/-- C5 (amended): the rendezvous channel is unbuffered (capacity 0) and
the orchestrator performs exactly one receive, so the first
callback-path send completes only by rendezvous with that receive,
while a second concurrent callback-path request's send can never
complete — its handler blocks forever. -/
theorem c5_unbuffered_channel :
    callbackChannelCapacity = 0 ∧ orchestratorReceiveCount = 1 ∧
      sendCanComplete 1 = true ∧ sendCanComplete 2 = false := by decide

/-- C6: a request to `/favicon.ico` is answered with a 404 not-found
response and does not reach the channel send; a request to any other
path is answered with the plain-text confirmation line and reaches the
send. -/
theorem c6_handler_paths (path : String) :
    (path = "/favicon.ico" →
      callbackHandler path =
        { status := 404, contentType := some "text/plain; charset=utf-8",
          body := "Not Found\n".data, signalSent := false }) ∧
    (path ≠ "/favicon.ico" →
      callbackHandler path =
        { status := 200, contentType := some "text/plain",
          body := "Authorized.\n".data, signalSent := true }) := by
  constructor <;> intro h <;> simp [callbackHandler, h]

theorem c6_handler_paths_witness :
    callbackHandler "/favicon.ico" =
      { status := 404, contentType := some "text/plain; charset=utf-8",
        body := "Not Found\n".data, signalSent := false } ∧
    callbackHandler "/" =
      { status := 200, contentType := some "text/plain",
        body := "Authorized.\n".data, signalSent := true } :=
  ⟨(c6_handler_paths "/favicon.ico").1 rfl, (c6_handler_paths "/").2 (by decide)⟩

/-- C7: saving a record with `saveJSONToFile` and reloading the
resulting file with `loadJSONFromFile` yields the original record
(both its access-credential and user-identifier fields). -/
theorem c7_save_load_roundtrip (a : Authorization) (fs : FS) (fs' : FS)
    (hsave : saveJSONToFile false fs authFile a = Except.ok fs') :
    loadJSONFromFile fs' authFile = Except.ok a := by
  have hfs : fs' = fs.write authFile (encodeAuthorization a) := by
    simpa [saveJSONToFile] using hsave.symm
  subst hfs
  simp [loadJSONFromFile, FS.read, FS.write, List.find?,
    decodeAuthorization_encodeAuthorization]

theorem c7_save_load_roundtrip_witness :
    loadJSONFromFile
        (FS.write [] authFile (encodeAuthorization ⟨"tok-xyz".data, "alice".data⟩))
        authFile =
      Except.ok ⟨"tok-xyz".data, "alice".data⟩ :=
  c7_save_load_roundtrip ⟨"tok-xyz".data, "alice".data⟩ [] _ rfl

/-- C8: when the consumer-key file is readable, `getConsumerKey`
returns only its first line (content after the first newline, if any,
is ignored) and changes nothing; when it is not readable,
`getConsumerKey` takes the first line of standard input, writes exactly
that line to the file with mode `0600` (owner read/write only), and
returns it. -/
theorem c8_consumer_key (st : KeyState) :
    (∀ pre post perm, st.keyFile = some (pre ++ '\n' :: post, perm) → '\n' ∉ pre →
      getConsumerKey st = (Except.ok pre, st)) ∧
    (∀ content perm, st.keyFile = some (content, perm) → '\n' ∉ content →
      getConsumerKey st = (Except.ok content, st)) ∧
    (∀ line rest, st.keyFile = none → st.stdin = line ++ '\n' :: rest → '\n' ∉ line →
      getConsumerKey st =
        (Except.ok line, { keyFile := some (line, 384), stdin := rest })) := by
  refine ⟨?_, ?_, ?_⟩
  · intro pre post perm h hn
    simp [getConsumerKey, h, takeWhile_append_newline pre post hn]
  · intro content perm h hn
    simp [getConsumerKey, h, takeWhile_no_newline content hn]
  · intro line rest h hs hn
    have hne : st.stdin ≠ [] := by
      rw [hs]; cases line <;> simp
    simp [getConsumerKey, h, hs, hne, takeWhile_append_newline line rest hn,
      dropWhile_append_newline line rest hn]

theorem c8_consumer_key_witness :
    getConsumerKey { keyFile := some ("abc123\ndef".data, 384), stdin := [] } =
      (Except.ok "abc123".data, { keyFile := some ("abc123\ndef".data, 384), stdin := [] }) ∧
    getConsumerKey { keyFile := none, stdin := "mykey\nrest".data } =
      (Except.ok "mykey".data, { keyFile := some ("mykey".data, 384), stdin := "rest".data }) :=
  ⟨(c8_consumer_key _).1 "abc123".data "def".data 384 rfl (by decide),
    (c8_consumer_key _).2.2 "mykey".data "rest".data rfl rfl (by decide)⟩

/-- C9: whatever is passed via the tags flag, the options record
`commandAdd` sends to the remote client has an empty tags field,
because `c.String("--tags")` looks up a name under which no flag is
registered (the flag is registered as `tags` and `tg`). -/
theorem c9_tags_always_empty (firstArg : String) (flags : AddFlags) (opts : AddOption)
    (h : commandAdd firstArg flags = Except.ok opts) :
    opts.Tags = "" := by
  have htags : contextString flags "--tags" = "" := by
    unfold contextString
    rw [if_neg (by decide), if_neg (by decide)]
  unfold commandAdd at h
  by_cases hf : firstArg = ""
  · simp [hf] at h
  · simp only [if_neg hf, htags, ne_eq, not_true_eq_false, if_false, reduceIte] at h
    split at h <;> simp_all <;> rw [← h]

theorem c9_tags_always_empty_witness :
    AddOption.Tags { URL := "http://example.com", Title := "T", Tags := "" } = "" :=
  c9_tags_always_empty "http://example.com" { title := "T", tags := "work,reading" } _
    (by decide)

/-- C10: for a numeric item-id argument, `commandArchive` returns `nil`
whatever the remote modify call does; the remote error is printed but
never propagated. -/
theorem c10_archive_swallows_error (firstArg : String) (modify : Int → ModifyOutcome)
    (n : Int) (h : atoi firstArg = some n) :
    commandArchive firstArg modify = Except.ok () := by
  have hne : firstArg ≠ "" := by
    intro he
    rw [he] at h
    exact Option.noConfusion h
  unfold commandArchive
  rw [if_neg hne, h]

theorem c10_archive_swallows_error_witness :
    commandArchive "123456789"
        (fun _ => { res := none, err := some "remote modify failed" }) =
      Except.ok () :=
  c10_archive_swallows_error "123456789"
    (fun _ => { res := none, err := some "remote modify failed" }) 123456789 (by decide)

end PocketCli
